import Mathlib

/-!
Verification of the chunked-upload core of the coipo-stuff repository.

The repository contains three relevant pieces of code:

* the chunk receiver, the upload-chunk route handler (embedded here as
  `receive`): validates the multipart fields and writes one chunk file into
  the per-session staging directory below the OS temp root;
* the assembler, the finalize-upload route handler, of which the repository
  holds two near-duplicate copies: `src/app/api/finalize-upload/route.ts`
  (embedded as `finalizeRoute`) and the unnamed variant (embedded as
  `finalizePart001`); they differ only in how the finally-block cleanup
  guards the deletion of the staging directory.

The filesystem is embedded as an explicit `Storage` state: staging
directories keyed by the (sanitized) session id, each holding chunk files
keyed by the decimal index string that follows the constant prefix in the
chunk file name, plus the destination directory as a map from plain file
names to byte contents, plus a flag recording whether the destination root
directory exists.  Path-traversal questions about the destination name are
handled separately by a segment-level path model (`basename`, `normSegs`).
-/

set_option autoImplicit false

namespace CoipoUpload

/-- Byte strings are modelled as lists of naturals (one per byte). -/
abbrev Bytes := List Nat

/-- Association-list lookup: the value of the first entry with the given key. -/
def lookupA {α : Type} (k : String) : List (String × α) → Option α
  | [] => none
  | (k', v) :: rest => if k' = k then some v else lookupA k rest

/-- Association-list insert: replaces the first entry with the given key,
appends when the key is absent.  Models a full-file overwrite / mkdir. -/
def insertA {α : Type} (k : String) (v : α) : List (String × α) → List (String × α)
  | [] => [(k, v)]
  | (k', v') :: rest => if k' = k then (k, v) :: rest else (k', v') :: insertA k v rest

/-- Association-list erase of every entry with the given key.  Models a
recursive, force-flagged removal of a directory (tolerates absence). -/
def eraseA {α : Type} (k : String) (l : List (String × α)) : List (String × α) :=
  l.filter (fun p => p.1 != k)

/-- A staging directory: chunk files keyed by the decimal index string of the
chunk file name (the constant `chunk_` name part, shared by every chunk file,
is elided from the key). -/
abbrev Dir := List (String × Bytes)

/-- The filesystem state the two handlers touch.  `staging` maps sanitized
session ids to their staging directories under the OS temp root
(the degenerate sanitized id, the empty string, would alias the staging
parent directory itself in the source and is excluded by hypotheses where a
session is looked up); `uploadsDirExists` records whether the destination
root `public/uploads` exists; `dest` maps plain file names inside the
destination root to their contents. -/
structure Storage where
  staging : List (String × Dir)
  uploadsDirExists : Bool
  dest : List (String × Bytes)
deriving DecidableEq

/-- A character allowed by the upload-id regular expression `[a-zA-Z0-9-_]`. -/
def isIdChar (c : Char) : Bool := c.isAlphanum || c == '-' || c == '_'

/-- The JS expression `uploadId.replace(/[^a-zA-Z0-9-_]/g, '')`: strips every
character outside the allowed set. -/
def sanitizeUploadId (s : String) : String := String.mk (s.data.filter isIdChar)

/-- The JS expression `chunkIndex.replace(/[^0-9]/g, '')`: strips every
non-digit character. -/
def sanitizeChunkIndex (s : String) : String := String.mk (s.data.filter Char.isDigit)

/-- A session id matching the allowed set `^[A-Za-z0-9_-]+$` exactly. -/
def validSessionId (s : String) : Prop := s ≠ "" ∧ ∀ c ∈ s.data, isIdChar c = true

/-- Decimal rendering of a natural number, little fuel-indexed core (the same
fuel pattern the Lean core `Nat.toDigits` uses, kept structural so that the
kernel can evaluate it). -/
def decimalCore (fuel : Nat) (n : Nat) : List Char :=
  match fuel with
  | 0 => []
  | fuel' + 1 =>
    if n < 10 then [Nat.digitChar n]
    else decimalCore fuel' (n / 10) ++ [Nat.digitChar (n % 10)]

/-- Decimal rendering of a natural number, the model of the JS template
interpolation of the loop index into the chunk file name. -/
def decimal (n : Nat) : String := String.mk (decimalCore (n + 1) n)

/-- Truthiness of an optional string field: JS treats a missing field (null)
and the empty string as falsy. -/
def isFalsyStr : Option String → Bool
  | none => true
  | some s => s == ""

/-- Results of the upload-chunk handler, one per distinct response body. -/
inductive ReceiveResult where
  | ok
  | missingFields
  | invalidUploadId
  | invalidChunkIndex
deriving DecidableEq

/-- The upload-chunk handler (the POST handler embedded at the end of the
repository README).  `file` is the uploaded blob (`none` models an absent or
falsy form field; a present zero-byte file is `some []`, truthy in JS),
`chunkIndex`/`uploadId` are the string form fields (`none` models absence).
On success the chunk is written at the staging path for the sanitized id and
index, creating the staging directory if needed. -/
def receive (file : Option Bytes) (chunkIndex uploadId : Option String)
    (st : Storage) : ReceiveResult × Storage :=
  if file.isNone || isFalsyStr chunkIndex || isFalsyStr uploadId then
    (.missingFields, st)
  else
    let uid := uploadId.getD ""
    let cid := chunkIndex.getD ""
    if sanitizeUploadId uid ≠ uid then (.invalidUploadId, st)
    else if sanitizeChunkIndex cid ≠ cid then (.invalidChunkIndex, st)
    else
      let dir := (lookupA (sanitizeUploadId uid) st.staging).getD []
      (.ok, { st with
        staging := insertA (sanitizeUploadId uid)
          (insertA (sanitizeChunkIndex cid) (file.getD []) dir) st.staging })

/-- Helper for `basename`: removes trailing separator characters, as the JS
posix basename does before taking the last segment. -/
def dropTrailingSlashes (l : List Char) : List Char :=
  (l.reverse.dropWhile (fun c => c == '/')).reverse

/-- The JS `path.basename` (posix): strips trailing separators, then keeps
only the part after the last separator. -/
def basename (s : String) : String :=
  String.mk (((dropTrailingSlashes s.data).reverse.takeWhile (fun c => c != '/')).reverse)

/-- A file name that names a regular file rather than a directory: not empty
and not one of the two dot entries.  The destination map of `Storage` is
keyed by such names; for the three residual names the destination path of
the source denotes an already-existing directory. -/
def plainName (s : String) : Prop := s ≠ "" ∧ s ≠ "." ∧ s ≠ ".."

/-- The value of the parsed `totalChunks` JSON field: an integer, or the
not-a-number case (`nan` covers both an absent field, i.e. `undefined`, and
`NaN`, which compare false against every number in JS). -/
inductive JsNum where
  | int (n : Int)
  | nan
deriving DecidableEq

/-- JS `>` against an integer constant: false for `undefined`/`NaN`. -/
def jgt : JsNum → Int → Bool
  | .int a, b => decide (b < a)
  | .nan, _ => false

/-- JS `<` against an integer constant: false for `undefined`/`NaN`. -/
def jlt : JsNum → Int → Bool
  | .int a, b => decide (a < b)
  | .nan, _ => false

/-- Number of iterations of `for (let i = 0; i < totalChunks; i++)`. -/
def loopCount : JsNum → Nat
  | .int a => a.toNat
  | .nan => 0

/-- Security ceiling on the claimed chunk count, from the source constant. -/
def MAX_CHUNKS : Int := 1000

/-- Results of the finalize-upload handlers, one per distinct response. -/
inductive FinalizeResult where
  | invalidTotalChunks
  | sessionNotFound
  | assemblyFailed
  | success (path : String)
deriving DecidableEq

/-- The assembly loop, reading chunk files `i`, `i+1`, ... for `fuel` more
iterations: returns the bytes streamed to the destination so far together
with the first missing index, `none` when every read chunk was present.
Bytes of chunks before a missing index are already written to the stream
when the loop aborts. -/
def assembleFrom (dir : Dir) : Nat → Nat → Bytes × Option Nat
  | _, 0 => ([], none)
  | i, fuel + 1 =>
    match lookupA (decimal i) dir with
    | none => ([], some i)
    | some b =>
      let rest := assembleFrom dir (i + 1) fuel
      (b ++ rest.1, rest.2)

/-- The finalize-upload handler of `src/app/api/finalize-upload/route.ts`.
`rmFails` injects a failure of the staging-directory deletion (the fault
persists for both deletion attempts of one request).  Order of effects
follows the source: range-check `totalChunks`, sanitize the id, take the
basename of the file name, ensure the destination root exists, check the
staging directory exists, open the write stream (truncating the destination
file), stream the chunks, then in the finally block destroy the stream and
delete the staging directory; in this copy that deletion is not guarded, so
its failure propagates to the outer catch and turns the response into the
generic assembly failure. -/
def finalizeRoute (uploadId fileName : String) (totalChunks : JsNum)
    (rmFails : Bool) (st : Storage) : FinalizeResult × Storage :=
  if jgt totalChunks MAX_CHUNKS || jlt totalChunks 1 then
    (.invalidTotalChunks, st)
  else
    let safeUploadId := sanitizeUploadId uploadId
    let safeFileName := basename fileName
    let st1 : Storage := { st with uploadsDirExists := true }
    match lookupA safeUploadId st1.staging with
    | none => (.sessionNotFound, st1)
    | some dir =>
      let res := assembleFrom dir 0 (loopCount totalChunks)
      let st2 : Storage := { st1 with dest := insertA safeFileName res.1 st1.dest }
      match res.2 with
      | none =>
        if rmFails then (.assemblyFailed, st2)
        else (.success ("/uploads/" ++ safeFileName),
          { st2 with staging := eraseA safeUploadId st2.staging })
      | some _ =>
        if rmFails then (.assemblyFailed, st2)
        else (.assemblyFailed, { st2 with staging := eraseA safeUploadId st2.staging })

/-- The finalize-upload handler of the unnamed near-duplicate source file
(part_001).  Identical to `finalizeRoute` except that its finally block
wraps the staging-directory deletion in its own try/catch, so a deletion
failure after a successful assembly is only logged and the success response
survives. -/
def finalizePart001 (uploadId fileName : String) (totalChunks : JsNum)
    (rmFails : Bool) (st : Storage) : FinalizeResult × Storage :=
  if jgt totalChunks MAX_CHUNKS || jlt totalChunks 1 then
    (.invalidTotalChunks, st)
  else
    let safeUploadId := sanitizeUploadId uploadId
    let safeFileName := basename fileName
    let st1 : Storage := { st with uploadsDirExists := true }
    match lookupA safeUploadId st1.staging with
    | none => (.sessionNotFound, st1)
    | some dir =>
      let res := assembleFrom dir 0 (loopCount totalChunks)
      let st2 : Storage := { st1 with dest := insertA safeFileName res.1 st1.dest }
      match res.2 with
      | none =>
        if rmFails then (.success ("/uploads/" ++ safeFileName), st2)
        else (.success ("/uploads/" ++ safeFileName),
          { st2 with staging := eraseA safeUploadId st2.staging })
      | some _ =>
        if rmFails then (.assemblyFailed, st2)
        else (.assemblyFailed, { st2 with staging := eraseA safeUploadId st2.staging })

/-- Destination root of the assembler, as path segments below the process
working directory (the constant working-directory segments are elided; the
single appended basename segment can never pop above them). -/
def uploadsRoot : List String := ["public", "uploads"]

/-- Path normalization at the segment level, as the JS path join performs on
an absolute base: empty and current-directory segments are dropped, a
parent-directory segment pops the last segment. -/
def normSegs (segs : List String) : List String :=
  segs.foldl (fun acc seg =>
    if seg = "" ∨ seg = "." then acc
    else if seg = ".." then acc.dropLast
    else acc ++ [seg]) []

/-- The normalized destination path the assembler opens for writing, for a
given request file name. -/
def destPathSegs (fileName : String) : List String :=
  normSegs (uploadsRoot ++ [basename fileName])

/-- A path lies strictly inside a root: the root is a proper initial run of
its segments. -/
def strictlyInside (root p : List String) : Prop :=
  p.take root.length = root ∧ root.length < p.length

/-- Sequential client: receives chunks `0 .. n-1` of one session in index
order, feeding payloads to the upload-chunk handler; returns whether every
receive reported success, together with the final storage state. -/
def receiveAll (sid : String) (payloads : Nat → Bytes) : Nat → Storage → Bool × Storage
  | 0, st => (true, st)
  | n + 1, st =>
    let r := receiveAll sid payloads n st
    let r2 := receive (some (payloads n)) (some (decimal n)) (some sid) r.2
    (match r2.1 with | .ok => r.1 | _ => false, r2.2)

/-- Concatenation of chunk payloads `b a, b (a+1), ..., b (a+k-1)` in
increasing index order. -/
def concatFrom (b : Nat → Bytes) : Nat → Nat → Bytes
  | _, 0 => []
  | a, k + 1 => b a ++ concatFrom b (a + 1) k

instance decValidSessionId (s : String) : Decidable (validSessionId s) :=
  inferInstanceAs (Decidable (s ≠ "" ∧ ∀ c ∈ s.data, isIdChar c = true))

instance decPlainName (s : String) : Decidable (plainName s) :=
  inferInstanceAs (Decidable (s ≠ "" ∧ s ≠ "." ∧ s ≠ ".."))

instance decStrictlyInside (r p : List String) : Decidable (strictlyInside r p) :=
  inferInstanceAs (Decidable (p.take r.length = r ∧ r.length < p.length))

/-! ### Association-list laws -/

theorem lookupA_insertA_self {α : Type} (k : String) (v : α) (l : List (String × α)) :
    lookupA k (insertA k v l) = some v := by
  induction l with
  | nil => simp [insertA, lookupA]
  | cons hd tl ih =>
    obtain ⟨k', v'⟩ := hd
    by_cases h : k' = k
    · simp [insertA, h, lookupA]
    · simp [insertA, h, lookupA, ih]

theorem lookupA_insertA_ne {α : Type} {k k' : String} (v : α) (l : List (String × α))
    (h : k' ≠ k) : lookupA k' (insertA k v l) = lookupA k' l := by
  induction l with
  | nil => simp [insertA, lookupA, Ne.symm h]
  | cons hd tl ih =>
    obtain ⟨a, b⟩ := hd
    by_cases ha : a = k
    · subst ha
      simp [insertA, lookupA, Ne.symm h]
    · simp only [insertA, if_neg ha, lookupA]
      by_cases ha' : a = k'
      · simp [ha']
      · simp [ha', ih]

theorem lookupA_eraseA_self {α : Type} (k : String) (l : List (String × α)) :
    lookupA k (eraseA k l) = none := by
  induction l with
  | nil => rfl
  | cons hd tl ih =>
    obtain ⟨a, b⟩ := hd
    by_cases ha : a = k
    · simpa [eraseA, List.filter_cons, ha] using ih
    · simpa [eraseA, List.filter_cons, ha, lookupA] using ih

theorem lookupA_eraseA_ne {α : Type} {k k' : String} (l : List (String × α))
    (h : k' ≠ k) : lookupA k' (eraseA k l) = lookupA k' l := by
  induction l with
  | nil => rfl
  | cons hd tl ih =>
    obtain ⟨a, b⟩ := hd
    by_cases ha : a = k
    · have h2 : eraseA k ((a, b) :: tl) = eraseA k tl := by
        simp [eraseA, List.filter_cons, ha]
      have h3 : lookupA k' ((a, b) :: tl) = lookupA k' tl := by
        have hak : a ≠ k' := by rw [ha]; exact Ne.symm h
        simp [lookupA, hak]
      rw [h2, ih, h3]
    · have hbne : (a != k) = true := bne_iff_ne.mpr ha
      have h2 : eraseA k ((a, b) :: tl) = (a, b) :: eraseA k tl := by
        simp [eraseA, List.filter_cons, hbne]
      by_cases ha' : a = k'
      · subst ha'
        rw [h2]
        simp [lookupA]
      · rw [h2]
        simp [lookupA, ha', ih]

/-! ### Sanitizer laws -/

theorem sanitizeUploadId_of_valid {s : String} (h : validSessionId s) :
    sanitizeUploadId s = s := by
  show String.mk (s.data.filter isIdChar) = s
  rw [List.filter_eq_self.mpr h.2]

theorem sanitizeUploadId_idem (s : String) :
    sanitizeUploadId (sanitizeUploadId s) = sanitizeUploadId s := by
  show String.mk ((s.data.filter isIdChar).filter isIdChar) = String.mk (s.data.filter isIdChar)
  rw [List.filter_eq_self.mpr (fun c hc => (List.mem_filter.mp hc).2)]

theorem sanitizeUploadId_ne_of_bad {s : String}
    (h : ∃ c ∈ s.data, isIdChar c = false) : sanitizeUploadId s ≠ s := by
  obtain ⟨c, hc, hbad⟩ := h
  intro heq
  have hdata : s.data.filter isIdChar = s.data := congrArg String.data heq
  have := List.filter_eq_self.mp hdata c hc
  simp [hbad] at this

theorem ne_empty_of_bad {s : String}
    (h : ∃ c ∈ s.data, isIdChar c = false) : s ≠ "" := by
  obtain ⟨c, hc, -⟩ := h
  intro heq
  subst heq
  simp at hc

/-! ### Decimal rendering laws -/

theorem digitChar_isDigit {n : Nat} (h : n < 10) :
    (Nat.digitChar n).isDigit = true := by
  interval_cases n <;> decide

/-- Numeric value of a decimal digit character. -/
def digitVal (c : Char) : Nat := c.toNat - 48

/-- Value of a digit string read most-significant first. -/
def valOf (l : List Char) : Nat := l.foldl (fun a c => 10 * a + digitVal c) 0

theorem digitVal_digitChar {n : Nat} (h : n < 10) :
    digitVal (Nat.digitChar n) = n := by
  interval_cases n <;> decide

theorem valOf_append (l : List Char) (c : Char) :
    valOf (l ++ [c]) = 10 * valOf l + digitVal c := by
  simp [valOf, List.foldl_append]

theorem valOf_decimalCore : ∀ (fuel n : Nat), n < fuel →
    valOf (decimalCore fuel n) = n := by
  intro fuel
  induction fuel with
  | zero => omega
  | succ f ih =>
    intro n hn
    by_cases h : n < 10
    · simp [decimalCore, h, valOf, digitVal_digitChar h]
    · have hdiv : n / 10 < n := Nat.div_lt_self (by omega) (by omega)
      have : valOf (decimalCore f (n / 10)) = n / 10 := ih _ (by omega)
      simp only [decimalCore, if_neg h, valOf_append, this]
      rw [digitVal_digitChar (Nat.mod_lt _ (by omega))]
      omega

theorem decimal_injective {a b : Nat} (h : decimal a = decimal b) : a = b := by
  have hl : decimalCore (a + 1) a = decimalCore (b + 1) b := congrArg String.data h
  have ha := valOf_decimalCore (a + 1) a (by omega)
  have hb := valOf_decimalCore (b + 1) b (by omega)
  rw [hl, hb] at ha
  omega

theorem decimalCore_isDigit : ∀ (fuel n : Nat), ∀ c ∈ decimalCore fuel n,
    c.isDigit = true := by
  intro fuel
  induction fuel with
  | zero => intro n c hc; simp [decimalCore] at hc
  | succ f ih =>
    intro n c hc
    by_cases h : n < 10
    · simp [decimalCore, h] at hc
      subst hc
      exact digitChar_isDigit h
    · simp only [decimalCore, if_neg h, List.mem_append, List.mem_singleton] at hc
      rcases hc with hc | hc
      · exact ih _ _ hc
      · subst hc
        exact digitChar_isDigit (Nat.mod_lt _ (by omega))

theorem decimal_ne_empty (n : Nat) : decimal n ≠ "" := by
  intro h
  have hdata : decimalCore (n + 1) n = ([] : List Char) := congrArg String.data h
  by_cases hn : n < 10 <;> simp [decimalCore, hn] at hdata

theorem sanitizeChunkIndex_decimal (n : Nat) :
    sanitizeChunkIndex (decimal n) = decimal n := by
  show String.mk ((decimalCore (n + 1) n).filter Char.isDigit) = _
  rw [List.filter_eq_self.mpr (decimalCore_isDigit (n + 1) n)]
  rfl

/-! ### Assembly-loop characterization -/

theorem assembleFrom_complete (dir : Dir) (b : Nat → Bytes) :
    ∀ (fuel a : Nat), (∀ i, i < fuel → lookupA (decimal (a + i)) dir = some (b (a + i))) →
    assembleFrom dir a fuel = (concatFrom b a fuel, none) := by
  intro fuel
  induction fuel with
  | zero => intro a _; rfl
  | succ f ih =>
    intro a h
    have h0 : lookupA (decimal a) dir = some (b a) := by simpa using h 0 (by omega)
    have hrest : assembleFrom dir (a + 1) f = (concatFrom b (a + 1) f, none) := by
      apply ih
      intro i hi
      have := h (i + 1) (by omega)
      simpa [Nat.add_assoc, Nat.add_comm 1 i] using this
    simp [assembleFrom, h0, hrest, concatFrom]

theorem assembleFrom_missing (dir : Dir) (b : Nat → Bytes) :
    ∀ (k a fuel : Nat), (∀ i, i < k → lookupA (decimal (a + i)) dir = some (b (a + i))) →
    lookupA (decimal (a + k)) dir = none → k < fuel →
    assembleFrom dir a fuel = (concatFrom b a k, some (a + k)) := by
  intro k
  induction k with
  | zero =>
    intro a fuel _ hmiss hfuel
    obtain ⟨f, rfl⟩ : ∃ f, fuel = f + 1 := ⟨fuel - 1, by omega⟩
    simp only [Nat.add_zero] at hmiss
    simp [assembleFrom, hmiss, concatFrom]
  | succ kk ih =>
    intro a fuel hpres hmiss hfuel
    obtain ⟨f, rfl⟩ : ∃ f, fuel = f + 1 := ⟨fuel - 1, by omega⟩
    have h0 : lookupA (decimal a) dir = some (b a) := by simpa using hpres 0 (by omega)
    have hrest : assembleFrom dir (a + 1) f = (concatFrom b (a + 1) kk, some (a + 1 + kk)) := by
      apply ih
      · intro i hi
        have := hpres (i + 1) (by omega)
        simpa [Nat.add_assoc, Nat.add_comm 1 i] using this
      · have : a + (kk + 1) = a + 1 + kk := by omega
        rwa [this] at hmiss
      · omega
    have harith : a + 1 + kk = a + (kk + 1) := by omega
    simp [assembleFrom, h0, hrest, concatFrom, harith]

/-! ### Receiver characterization -/

theorem receive_valid (b : Bytes) (m : Nat) {sid : String} (hsid : validSessionId sid)
    (st : Storage) :
    receive (some b) (some (decimal m)) (some sid) st =
      (.ok, { st with staging := (insertA sid
        (insertA (decimal m) b ((lookupA sid st.staging).getD [])) st.staging) }) := by
  have h1 : isFalsyStr (some (decimal m)) = false := by
    simp [isFalsyStr, decimal_ne_empty m]
  have h2 : isFalsyStr (some sid) = false := by simp [isFalsyStr, hsid.1]
  have h3 := sanitizeUploadId_of_valid hsid
  have h4 := sanitizeChunkIndex_decimal m
  simp [receive, h1, h2, h3, h4]

theorem receiveAll_spec {sid : String} (p : Nat → Bytes) (hsid : validSessionId sid)
    (st : Storage) : ∀ n : Nat,
    (receiveAll sid p (n + 1) st).1 = true ∧
    ∃ dir, lookupA sid ((receiveAll sid p (n + 1) st).2).staging = some dir ∧
      ∀ i, i ≤ n → lookupA (decimal i) dir = some (p i) := by
  intro n
  induction n with
  | zero =>
    have hstep := receive_valid (p 0) 0 hsid st
    refine ⟨by simp [receiveAll, hstep],
      insertA (decimal 0) (p 0) ((lookupA sid st.staging).getD []), ?_, ?_⟩
    · simp [receiveAll, hstep, lookupA_insertA_self]
    · intro i hi
      interval_cases i
      exact lookupA_insertA_self _ _ _
  | succ n ihn =>
    obtain ⟨hfst, dir, hdir, hchunks⟩ := ihn
    have hstep := receive_valid (p (n + 1)) (n + 1) hsid (receiveAll sid p (n + 1) st).2
    have hunfold : receiveAll sid p (n + 1 + 1) st =
        ((match (receive (some (p (n + 1))) (some (decimal (n + 1))) (some sid)
            (receiveAll sid p (n + 1) st).2).1 with
          | ReceiveResult.ok => (receiveAll sid p (n + 1) st).1
          | _ => false),
         (receive (some (p (n + 1))) (some (decimal (n + 1))) (some sid)
            (receiveAll sid p (n + 1) st).2).2) := rfl
    refine ⟨?_, insertA (decimal (n + 1)) (p (n + 1)) dir, ?_, ?_⟩
    · rw [hunfold, hstep]
      simpa using hfst
    · rw [hunfold, hstep]
      simp [hdir, lookupA_insertA_self]
    · intro i hi
      rcases Nat.lt_or_ge i (n + 1) with hlt | hge
      · rw [lookupA_insertA_ne _ _ (fun he => absurd (decimal_injective he) (by omega))]
        exact hchunks i (by omega)
      · have hieq : i = n + 1 := by omega
        subst hieq
        exact lookupA_insertA_self _ _ _

/-! ### Assembler characterization -/

theorem validation_false {n : Int} (h1 : 1 ≤ n) (h2 : n ≤ 1000) :
    (jgt (JsNum.int n) MAX_CHUNKS || jlt (JsNum.int n) 1) = false := by
  simp only [jgt, jlt, MAX_CHUNKS, Bool.or_eq_false_iff, decide_eq_false_iff_not]
  omega

theorem finalizeRoute_invalid {tc : JsNum}
    (hv : (jgt tc MAX_CHUNKS || jlt tc 1) = true) (uploadId fileName : String)
    (rmFails : Bool) (st : Storage) :
    finalizeRoute uploadId fileName tc rmFails st = (.invalidTotalChunks, st) := by
  simp [finalizeRoute, hv]

theorem finalizePart001_invalid {tc : JsNum}
    (hv : (jgt tc MAX_CHUNKS || jlt tc 1) = true) (uploadId fileName : String)
    (rmFails : Bool) (st : Storage) :
    finalizePart001 uploadId fileName tc rmFails st = (.invalidTotalChunks, st) := by
  simp [finalizePart001, hv]

theorem finalizeRoute_notFound {tc : JsNum} {uploadId : String} {st : Storage}
    (hv : (jgt tc MAX_CHUNKS || jlt tc 1) = false)
    (hnone : lookupA (sanitizeUploadId uploadId) st.staging = none)
    (fileName : String) (rmFails : Bool) :
    finalizeRoute uploadId fileName tc rmFails st =
      (.sessionNotFound, { st with uploadsDirExists := true }) := by
  simp [finalizeRoute, hv, hnone]

theorem finalizePart001_notFound {tc : JsNum} {uploadId : String} {st : Storage}
    (hv : (jgt tc MAX_CHUNKS || jlt tc 1) = false)
    (hnone : lookupA (sanitizeUploadId uploadId) st.staging = none)
    (fileName : String) (rmFails : Bool) :
    finalizePart001 uploadId fileName tc rmFails st =
      (.sessionNotFound, { st with uploadsDirExists := true }) := by
  simp [finalizePart001, hv, hnone]

theorem finalizeRoute_complete {tc : JsNum} {uploadId : String} {st : Storage}
    {dir : Dir} {bytes : Bytes}
    (hv : (jgt tc MAX_CHUNKS || jlt tc 1) = false)
    (hdir : lookupA (sanitizeUploadId uploadId) st.staging = some dir)
    (hres : assembleFrom dir 0 (loopCount tc) = (bytes, none)) (fileName : String) :
    finalizeRoute uploadId fileName tc false st =
      (.success ("/uploads/" ++ basename fileName),
       { st with uploadsDirExists := true,
                 dest := insertA (basename fileName) bytes st.dest,
                 staging := eraseA (sanitizeUploadId uploadId) st.staging }) := by
  simp [finalizeRoute, hv, hdir, hres]

theorem finalizePart001_complete {tc : JsNum} {uploadId : String} {st : Storage}
    {dir : Dir} {bytes : Bytes}
    (hv : (jgt tc MAX_CHUNKS || jlt tc 1) = false)
    (hdir : lookupA (sanitizeUploadId uploadId) st.staging = some dir)
    (hres : assembleFrom dir 0 (loopCount tc) = (bytes, none)) (fileName : String) :
    finalizePart001 uploadId fileName tc false st =
      (.success ("/uploads/" ++ basename fileName),
       { st with uploadsDirExists := true,
                 dest := insertA (basename fileName) bytes st.dest,
                 staging := eraseA (sanitizeUploadId uploadId) st.staging }) := by
  simp [finalizePart001, hv, hdir, hres]

theorem finalizeRoute_missing {tc : JsNum} {uploadId : String} {st : Storage}
    {dir : Dir} {bytes : Bytes} {j : Nat}
    (hv : (jgt tc MAX_CHUNKS || jlt tc 1) = false)
    (hdir : lookupA (sanitizeUploadId uploadId) st.staging = some dir)
    (hres : assembleFrom dir 0 (loopCount tc) = (bytes, some j)) (fileName : String) :
    finalizeRoute uploadId fileName tc false st =
      (.assemblyFailed,
       { st with uploadsDirExists := true,
                 dest := insertA (basename fileName) bytes st.dest,
                 staging := eraseA (sanitizeUploadId uploadId) st.staging }) := by
  simp [finalizeRoute, hv, hdir, hres]

theorem finalizePart001_missing {tc : JsNum} {uploadId : String} {st : Storage}
    {dir : Dir} {bytes : Bytes} {j : Nat}
    (hv : (jgt tc MAX_CHUNKS || jlt tc 1) = false)
    (hdir : lookupA (sanitizeUploadId uploadId) st.staging = some dir)
    (hres : assembleFrom dir 0 (loopCount tc) = (bytes, some j)) (fileName : String) :
    finalizePart001 uploadId fileName tc false st =
      (.assemblyFailed,
       { st with uploadsDirExists := true,
                 dest := insertA (basename fileName) bytes st.dest,
                 staging := eraseA (sanitizeUploadId uploadId) st.staging }) := by
  simp [finalizePart001, hv, hdir, hres]

/-! ### Claim theorems -/

/-- C7: for every integer `totalChunks` with `totalChunks < 1` or
`totalChunks > MAX_CHUNKS` (1000), both finalize handlers fail with the
invalid-chunk-count error and leave the whole storage state — in particular
any pre-existing staging directory — untouched. -/
theorem claim7_invalid_chunk_count_rejected (uploadId fileName : String) (k : Int)
    (h : 1000 < k ∨ k < 1) (rmFails : Bool) (st : Storage) :
    finalizeRoute uploadId fileName (.int k) rmFails st = (.invalidTotalChunks, st) ∧
    finalizePart001 uploadId fileName (.int k) rmFails st = (.invalidTotalChunks, st) := by
  have hv : (jgt (JsNum.int k) MAX_CHUNKS || jlt (JsNum.int k) 1) = true := by
    simp only [jgt, jlt, MAX_CHUNKS, Bool.or_eq_true, decide_eq_true_eq]
    omega
  exact ⟨finalizeRoute_invalid hv _ _ _ _, finalizePart001_invalid hv _ _ _ _⟩

theorem claim7_invalid_chunk_count_rejected_witness :
    (1000 < (1001 : Int) ∨ (1001 : Int) < 1) ∧
    finalizeRoute "abc" "f.bin" (.int 1001) false (Storage.mk [] false []) =
      (.invalidTotalChunks, Storage.mk [] false []) := by
  refine ⟨by omega, ?_⟩
  exact (claim7_invalid_chunk_count_rejected "abc" "f.bin" 1001 (by omega) false
    (Storage.mk [] false [])).1

/-- C5 counterexample: on a state where neither the session's staging
directory nor the destination root exists, finalize reports
session-not-found but the state has changed — the destination root directory
was created before the session-existence check.  This refutes the claim that
the session-not-found path has no side effects at all. -/
theorem claim5_counterexample :
    (finalizeRoute "s" "f.bin" (.int 1) false (Storage.mk [] false [])).1 =
      .sessionNotFound ∧
    (finalizeRoute "s" "f.bin" (.int 1) false (Storage.mk [] false [])).2 ≠
      Storage.mk [] false [] := by
  decide

/-- C5 (amended): with an in-range chunk count and no staging directory for
the sanitized session id, both finalize handlers return session-not-found
and their only side effect is ensuring the destination root directory
exists; no file is created, modified or deleted and staging is untouched. -/
theorem claim5_session_not_found (uploadId fileName : String) (k : Int)
    (rmFails : Bool) (st : Storage) (h1 : 1 ≤ k) (h2 : k ≤ 1000)
    (hkey : sanitizeUploadId uploadId ≠ "")
    (hnone : lookupA (sanitizeUploadId uploadId) st.staging = none) :
    finalizeRoute uploadId fileName (.int k) rmFails st =
      (.sessionNotFound, { st with uploadsDirExists := true }) ∧
    finalizePart001 uploadId fileName (.int k) rmFails st =
      (.sessionNotFound, { st with uploadsDirExists := true }) :=
  ⟨finalizeRoute_notFound (validation_false h1 h2) hnone fileName rmFails,
   finalizePart001_notFound (validation_false h1 h2) hnone fileName rmFails⟩

theorem claim5_session_not_found_witness :
    finalizeRoute "s" "f.bin" (.int 1) false (Storage.mk [] false [("g", [1])]) =
      (.sessionNotFound, Storage.mk [] true [("g", [1])]) :=
  ((claim5_session_not_found "s" "f.bin" 1 false (Storage.mk [] false [("g", [1])])
    (by omega) (by omega) (by decide) (by decide)).1).trans (by decide)

/-- C3: at a state holding a complete one-chunk session, when the
staging-directory deletion fails after a successful assembly, the handler of
route.ts returns the generic assembly failure — the cleanup failure masks
the primary success — while the near-duplicate handler (whose finally block
guards the deletion with its own try/catch, as the repository README
documents) still returns success.  Both leave the same state: destination
written, staging retained. -/
theorem claim3_cleanup_failure_masks_success :
    finalizeRoute "s" "out.bin" (.int 1) true
        (Storage.mk [("s", [("0", [65])])] true []) =
      (.assemblyFailed, Storage.mk [("s", [("0", [65])])] true [("out.bin", [65])]) ∧
    finalizePart001 "s" "out.bin" (.int 1) true
        (Storage.mk [("s", [("0", [65])])] true []) =
      (.success "/uploads/out.bin",
       Storage.mk [("s", [("0", [65])])] true [("out.bin", [65])]) := by
  decide

/-- C9 counterexample: the two finalize implementations are not equivalent —
when the staging-directory deletion fails after a successful assembly they
return different results on the same input and state. -/
theorem claim9_counterexample :
    (finalizeRoute "s" "o" (.int 1) true (Storage.mk [("s", [("0", [7])])] true [])).1 ≠
    (finalizePart001 "s" "o" (.int 1) true (Storage.mk [("s", [("0", [7])])] true [])).1 := by
  decide

/-- C9 (amended): on every input and initial state the two finalize
implementations leave identical final storage states, and they return the
same result except in exactly one situation: assembly succeeded and the
staging-directory deletion failed, where route.ts returns the generic
assembly failure while the duplicate returns success. -/
theorem claim9_implementations_agree (uploadId fileName : String) (tc : JsNum)
    (rmFails : Bool) (st : Storage) :
    (finalizeRoute uploadId fileName tc rmFails st).2 =
      (finalizePart001 uploadId fileName tc rmFails st).2 ∧
    ((finalizeRoute uploadId fileName tc rmFails st).1 =
       (finalizePart001 uploadId fileName tc rmFails st).1 ∨
     (rmFails = true ∧
      (finalizeRoute uploadId fileName tc rmFails st).1 = .assemblyFailed ∧
      (finalizePart001 uploadId fileName tc rmFails st).1 =
        .success ("/uploads/" ++ basename fileName))) := by
  by_cases hv : (jgt tc MAX_CHUNKS || jlt tc 1) = true
  · constructor
    · simp [finalizeRoute, finalizePart001, hv]
    · left
      simp [finalizeRoute, finalizePart001, hv]
  · have hv' : (jgt tc MAX_CHUNKS || jlt tc 1) = false := by
      revert hv
      cases jgt tc MAX_CHUNKS || jlt tc 1 <;> simp
    cases hl : lookupA (sanitizeUploadId uploadId) st.staging with
    | none =>
      constructor
      · simp [finalizeRoute, finalizePart001, hv', hl]
      · left
        simp [finalizeRoute, finalizePart001, hv', hl]
    | some dir =>
      cases hres : (assembleFrom dir 0 (loopCount tc)).2 with
      | none =>
        cases rmFails
        · constructor
          · simp [finalizeRoute, finalizePart001, hv', hl, hres]
          · left
            simp [finalizeRoute, finalizePart001, hv', hl, hres]
        · constructor
          · simp [finalizeRoute, finalizePart001, hv', hl, hres]
          · right
            refine ⟨rfl, ?_, ?_⟩ <;>
              simp [finalizeRoute, finalizePart001, hv', hl, hres]
      | some j =>
        cases rmFails
        · constructor
          · simp [finalizeRoute, finalizePart001, hv', hl, hres]
          · left
            simp [finalizeRoute, finalizePart001, hv', hl, hres]
        · constructor
          · simp [finalizeRoute, finalizePart001, hv', hl, hres]
          · left
            simp [finalizeRoute, finalizePart001, hv', hl, hres]

/-- C10: when `totalChunks` is absent or not a number, both range
comparisons are false, validation passes, the assembly loop runs zero
iterations, an empty destination file is written (overwriting any existing
file of that name), the staging directory is deleted and both finalize
handlers report success. -/
theorem claim10_nan_total_chunks_succeeds (uploadId fileName : String)
    (st : Storage) (dir : Dir)
    (hkey : sanitizeUploadId uploadId ≠ "")
    (hdir : lookupA (sanitizeUploadId uploadId) st.staging = some dir)
    (hplain : plainName (basename fileName)) :
    finalizeRoute uploadId fileName .nan false st =
      (.success ("/uploads/" ++ basename fileName),
       { st with uploadsDirExists := true,
                 dest := insertA (basename fileName) [] st.dest,
                 staging := eraseA (sanitizeUploadId uploadId) st.staging }) ∧
    finalizePart001 uploadId fileName .nan false st =
      (.success ("/uploads/" ++ basename fileName),
       { st with uploadsDirExists := true,
                 dest := insertA (basename fileName) [] st.dest,
                 staging := eraseA (sanitizeUploadId uploadId) st.staging }) := by
  have hv : (jgt .nan MAX_CHUNKS || jlt .nan 1) = false := rfl
  have hres : assembleFrom dir 0 (loopCount .nan) = ([], none) := rfl
  exact ⟨finalizeRoute_complete hv hdir hres fileName,
         finalizePart001_complete hv hdir hres fileName⟩

theorem claim10_nan_total_chunks_succeeds_witness :
    finalizeRoute "sess" "f.bin" .nan false
        (Storage.mk [("sess", [("0", [1])])] true [("f.bin", [9, 9])]) =
      (.success "/uploads/f.bin", Storage.mk [] true [("f.bin", [])]) :=
  ((claim10_nan_total_chunks_succeeds "sess" "f.bin"
      (Storage.mk [("sess", [("0", [1])])] true [("f.bin", [9, 9])]) [("0", [1])]
      (by decide) (by decide) (by decide)).1).trans (by decide)

/-- C1: round trip.  For every valid session id, every chunk count in
range, and every assignment of non-empty payloads to indices below the
count, receiving every chunk in index order and then finalizing with the
correct total succeeds: every receive reports success, finalize returns the
public destination path, the destination file holds the concatenation of
the payloads in increasing index order, and the session's staging directory
no longer exists.  (Receive accepts any present payload, so the
non-emptiness hypothesis is carried from the claim but not needed;
`plainName` excludes destination basenames that denote directories, outside
the destination-file model.) -/
theorem claim1_round_trip (sid fileName : String) (n : Nat) (p : Nat → Bytes)
    (st : Storage) (hsid : validSessionId sid) (hn1 : 1 ≤ n) (hn2 : n ≤ 1000)
    (hp : ∀ i, i < n → p i ≠ []) (hplain : plainName (basename fileName)) :
    (receiveAll sid p n st).1 = true ∧
    (finalizeRoute sid fileName (.int n) false (receiveAll sid p n st).2).1 =
      .success ("/uploads/" ++ basename fileName) ∧
    lookupA (basename fileName)
      (finalizeRoute sid fileName (.int n) false (receiveAll sid p n st).2).2.dest =
      some (concatFrom p 0 n) ∧
    lookupA sid
      (finalizeRoute sid fileName (.int n) false (receiveAll sid p n st).2).2.staging =
      none := by
  obtain ⟨m, rfl⟩ : ∃ m, n = m + 1 := ⟨n - 1, by omega⟩
  obtain ⟨hfst, dir, hdir, hchunks⟩ := receiveAll_spec p hsid st m
  have hv : (jgt (JsNum.int (m + 1 : Nat)) MAX_CHUNKS ||
      jlt (JsNum.int (m + 1 : Nat)) 1) = false :=
    validation_false (by omega) (by omega)
  have hkey := sanitizeUploadId_of_valid hsid
  have hdir' : lookupA (sanitizeUploadId sid)
      ((receiveAll sid p (m + 1) st).2).staging = some dir := by
    rw [hkey]; exact hdir
  have hloop : loopCount (JsNum.int (m + 1 : Nat)) = m + 1 := by
    simp [loopCount]
  have hasm : assembleFrom dir 0 (loopCount (JsNum.int (m + 1 : Nat))) =
      (concatFrom p 0 (m + 1), none) := by
    rw [hloop]
    apply assembleFrom_complete
    intro i hi
    simpa using hchunks i (by omega)
  have hfin := finalizeRoute_complete hv hdir' hasm fileName
  rw [hfin]
  refine ⟨hfst, rfl, ?_, ?_⟩
  · exact lookupA_insertA_self _ _ _
  · show lookupA sid (eraseA (sanitizeUploadId sid) _) = none
    rw [hkey]
    exact lookupA_eraseA_self _ _

theorem claim1_round_trip_witness :
    (receiveAll "abc-1" (fun i => if i = 0 then [65, 65, 65, 65] else [66, 66]) 2
      (Storage.mk [] false [])).1 = true ∧
    (finalizeRoute "abc-1" "out.bin" (.int 2) false
      (receiveAll "abc-1" (fun i => if i = 0 then [65, 65, 65, 65] else [66, 66]) 2
        (Storage.mk [] false [])).2).1 = .success "/uploads/out.bin" ∧
    lookupA "out.bin"
      (finalizeRoute "abc-1" "out.bin" (.int 2) false
        (receiveAll "abc-1" (fun i => if i = 0 then [65, 65, 65, 65] else [66, 66]) 2
          (Storage.mk [] false [])).2).2.dest = some [65, 65, 65, 65, 66, 66] ∧
    lookupA "abc-1"
      (finalizeRoute "abc-1" "out.bin" (.int 2) false
        (receiveAll "abc-1" (fun i => if i = 0 then [65, 65, 65, 65] else [66, 66]) 2
          (Storage.mk [] false [])).2).2.staging = none := by
  have h := claim1_round_trip "abc-1" "out.bin" 2
    (fun i => if i = 0 then [65, 65, 65, 65] else [66, 66]) (Storage.mk [] false [])
    (by decide) (by omega) (by omega) (by decide) (by decide)
  have hb : basename "out.bin" = "out.bin" := by decide
  rw [hb] at h
  exact ⟨h.1, h.2.1.trans (by decide), h.2.2.1.trans (by decide), h.2.2.2⟩

/-- C4: missing-chunk failure semantics.  When the staging directory of the
sanitized session id exists but the first missing chunk index `j` is below
an in-range `totalChunks`, both finalize handlers fail with the generic
assembly failure, the staging directory is deleted anyway (unconditional
cleanup), and the destination file is left truncated, holding exactly the
concatenation of the chunks before `j` — the partial bytes are not rolled
back. -/
theorem claim4_missing_chunk (uploadId fileName : String) (n j : Nat)
    (b : Nat → Bytes) (dir : Dir) (st : Storage)
    (hn1 : 1 ≤ n) (hn2 : n ≤ 1000)
    (hkey : sanitizeUploadId uploadId ≠ "")
    (hdir : lookupA (sanitizeUploadId uploadId) st.staging = some dir)
    (hpres : ∀ i, i < j → lookupA (decimal i) dir = some (b i))
    (hmiss : lookupA (decimal j) dir = none) (hj : j < n)
    (hplain : plainName (basename fileName)) :
    finalizeRoute uploadId fileName (.int n) false st =
      (.assemblyFailed,
       { st with uploadsDirExists := true,
                 dest := insertA (basename fileName) (concatFrom b 0 j) st.dest,
                 staging := eraseA (sanitizeUploadId uploadId) st.staging }) ∧
    finalizePart001 uploadId fileName (.int n) false st =
      (.assemblyFailed,
       { st with uploadsDirExists := true,
                 dest := insertA (basename fileName) (concatFrom b 0 j) st.dest,
                 staging := eraseA (sanitizeUploadId uploadId) st.staging }) := by
  have hv : (jgt (JsNum.int (n : Nat)) MAX_CHUNKS ||
      jlt (JsNum.int (n : Nat)) 1) = false :=
    validation_false (by omega) (by omega)
  have hloop : loopCount (JsNum.int (n : Nat)) = n := by simp [loopCount]
  have hasm : assembleFrom dir 0 (loopCount (JsNum.int (n : Nat))) =
      (concatFrom b 0 j, some j) := by
    rw [hloop]
    have := assembleFrom_missing dir b j 0 n
      (by intro i hi; simpa using hpres i hi) (by simpa using hmiss) hj
    simpa using this
  exact ⟨finalizeRoute_missing hv hdir hasm fileName,
         finalizePart001_missing hv hdir hasm fileName⟩

theorem claim4_missing_chunk_witness :
    finalizeRoute "s" "out.bin" (.int 2) false
        (Storage.mk [("s", [("0", [1, 2])])] true []) =
      (.assemblyFailed, Storage.mk [] true [("out.bin", [1, 2])]) := by
  have h := claim4_missing_chunk "s" "out.bin" 2 1 (fun _ => [1, 2])
    [("0", [1, 2])] (Storage.mk [("s", [("0", [1, 2])])] true [])
    (by omega) (by omega) (by decide) (by decide) (by decide) (by decide)
    (by omega) (by decide)
  exact h.1.trans (by decide)

/-- C2 counterexample: finalize called with a session id containing a
disallowed character does not reject the request — it returns
session-not-found after sanitization, and it has performed a filesystem
write (the destination root directory was created).  This refutes the claim
that both receive and finalize reject such ids with no filesystem writes. -/
theorem claim2_counterexample :
    (finalizeRoute "abc/def" "f.bin" (.int 1) false (Storage.mk [] false [])).1 =
      .sessionNotFound ∧
    (finalizeRoute "abc/def" "f.bin" (.int 1) false (Storage.mk [] false [])).2 ≠
      Storage.mk [] false [] := by
  decide

/-- C2 (amended): for a session id containing a character outside the
allowed set, receive (with the other fields present) rejects with the
invalid-upload-id error and performs no write, while both finalize handlers
do not reject: they proceed exactly as if called with the stripped id
(stated for ids where at least one allowed character remains; the
all-stripped id would alias the staging parent directory in the source,
outside this model). -/
theorem claim2_invalid_session_id (sid : String)
    (hbad : ∃ c ∈ sid.data, isIdChar c = false)
    (hkey : sanitizeUploadId sid ≠ "") :
    (∀ b cid st, cid ≠ "" →
      receive (some b) (some cid) (some sid) st = (.invalidUploadId, st)) ∧
    (∀ fileName tc rmFails st,
      finalizeRoute sid fileName tc rmFails st =
        finalizeRoute (sanitizeUploadId sid) fileName tc rmFails st ∧
      finalizePart001 sid fileName tc rmFails st =
        finalizePart001 (sanitizeUploadId sid) fileName tc rmFails st) := by
  have hne := sanitizeUploadId_ne_of_bad hbad
  have hnem := ne_empty_of_bad hbad
  constructor
  · intro b cid st hcid
    have h1 : isFalsyStr (some cid) = false := by simp [isFalsyStr, hcid]
    have h2 : isFalsyStr (some sid) = false := by simp [isFalsyStr, hnem]
    simp [receive, h1, h2, hne]
  · intro fileName tc rmFails st
    constructor
    · simp [finalizeRoute, sanitizeUploadId_idem]
    · simp [finalizePart001, sanitizeUploadId_idem]

theorem claim2_invalid_session_id_witness :
    receive (some [1]) (some "0") (some "abc/def") (Storage.mk [] false []) =
      (.invalidUploadId, Storage.mk [] false []) ∧
    finalizeRoute "abc/def" "f.bin" (.int 1) false (Storage.mk [] false []) =
      finalizeRoute "abcdef" "f.bin" (.int 1) false (Storage.mk [] false []) := by
  have h := claim2_invalid_session_id "abc/def" (by decide) (by decide)
  refine ⟨h.1 [1] "0" (Storage.mk [] false []) (by decide), ?_⟩
  exact ((h.2 "f.bin" (.int 1) false (Storage.mk [] false [])).1).trans (by decide)

/-- C6 counterexample: the basename of the destination name can itself be
the parent-directory entry, in which case the destination path resolves to
the parent of the destination root — not strictly inside it.  This refutes
the universally quantified strictly-inside claim. -/
theorem claim6_counterexample :
    basename ".." = ".." ∧ destPathSegs ".." = ["public"] ∧
    ¬ strictlyInside uploadsRoot (destPathSegs "..") := by
  decide

/-- C6 (amended): only the final path segment of the destination name is
ever used (the basename contains no separator), and whenever that segment
is a plain file name — not empty, not the current-directory entry, not the
parent-directory entry — the destination path is the root extended by that
single segment, strictly inside the destination root.  For the three
residual segments the path resolves to the root itself or to its parent
directory, both existing directories, so no input ever yields a regular
file path outside the root other than the root's parent directory itself,
on which the file open fails. -/
theorem claim6_path_confinement (fileName : String) :
    (∀ c ∈ (basename fileName).data, c ≠ '/') ∧
    (plainName (basename fileName) →
      destPathSegs fileName = uploadsRoot ++ [basename fileName] ∧
      strictlyInside uploadsRoot (destPathSegs fileName)) ∧
    (¬ plainName (basename fileName) →
      destPathSegs fileName = uploadsRoot ∨ destPathSegs fileName = ["public"]) := by
  refine ⟨?_, ?_, ?_⟩
  · intro c hc
    have hc' : c ∈ ((dropTrailingSlashes fileName.data).reverse.takeWhile
        (fun c => c != '/')) := List.mem_reverse.mp hc
    have := List.mem_takeWhile_imp hc'
    exact bne_iff_ne.mp this
  · intro hplain
    obtain ⟨h1, h2, h3⟩ := hplain
    have hd : destPathSegs fileName = uploadsRoot ++ [basename fileName] := by
      simp [destPathSegs, normSegs, uploadsRoot, h1, h2, h3]
    refine ⟨hd, ?_⟩
    rw [hd]
    constructor
    · exact List.take_left uploadsRoot [basename fileName]
    · simp [uploadsRoot]
  · intro hnp
    have hcases : basename fileName = "" ∨ basename fileName = "." ∨
        basename fileName = ".." := by
      by_contra hc
      push_neg at hc
      exact hnp ⟨hc.1, hc.2.1, hc.2.2⟩
    rcases hcases with h | h | h
    · left; unfold destPathSegs; rw [h]; decide
    · left; unfold destPathSegs; rw [h]; decide
    · right; unfold destPathSegs; rw [h]; decide

theorem claim6_path_confinement_witness :
    basename "../../etc/passwd" = "passwd" ∧
    destPathSegs "../../etc/passwd" = ["public", "uploads", "passwd"] ∧
    strictlyInside uploadsRoot (destPathSegs "../../etc/passwd") := by
  have h := (claim6_path_confinement "../../etc/passwd").2.1 (by decide)
  exact ⟨by decide, h.1.trans (by decide), h.2⟩

/-- C8 counterexample: a present zero-byte payload is not rejected — the
truthiness check on the file field only catches an absent field, so receive
accepts the empty payload, reports success and writes an empty chunk file.
This refutes the part of the claim requiring a missing-payload error for
zero-byte payloads. -/
theorem claim8_counterexample :
    (receive (some []) (some "0") (some "s") (Storage.mk [] false [])).1 = .ok ∧
    (receive (some []) (some "0") (some "s") (Storage.mk [] false [])).2 ≠
      Storage.mk [] false [] := by
  decide

/-- C8 (amended): every receiver precondition check precedes any filesystem
write — an absent file field or an absent/empty chunk index or session id
yields the missing-fields error, a session id with disallowed characters
yields the invalid-upload-id error, a chunk index with non-digit characters
yields the invalid-chunk-index error, all leaving the state untouched — but
a present zero-byte payload is not rejected: with valid fields it is
accepted and written as an empty chunk file. -/
theorem claim8_receive_preconditions :
    (∀ cid uid st, receive none cid uid st = (.missingFields, st)) ∧
    (∀ f uid st, receive f none uid st = (.missingFields, st)) ∧
    (∀ f uid st, receive f (some "") uid st = (.missingFields, st)) ∧
    (∀ f cid st, receive f cid none st = (.missingFields, st)) ∧
    (∀ f cid st, receive f cid (some "") st = (.missingFields, st)) ∧
    (∀ b cid uid st, cid ≠ "" → uid ≠ "" → sanitizeUploadId uid ≠ uid →
      receive (some b) (some cid) (some uid) st = (.invalidUploadId, st)) ∧
    (∀ b cid uid st, cid ≠ "" → uid ≠ "" → sanitizeUploadId uid = uid →
      sanitizeChunkIndex cid ≠ cid →
      receive (some b) (some cid) (some uid) st = (.invalidChunkIndex, st)) ∧
    (∀ cid uid st, cid ≠ "" → uid ≠ "" → sanitizeUploadId uid = uid →
      sanitizeChunkIndex cid = cid →
      receive (some []) (some cid) (some uid) st =
        (.ok, { st with staging := (insertA uid (insertA cid []
          ((lookupA uid st.staging).getD [])) st.staging) })) := by
  refine ⟨?_, ?_, ?_, ?_, ?_, ?_, ?_, ?_⟩
  · intro cid uid st; simp [receive]
  · intro f uid st; simp [receive, isFalsyStr]
  · intro f uid st; simp [receive, isFalsyStr]
  · intro f cid st; simp [receive, isFalsyStr]
  · intro f cid st; simp [receive, isFalsyStr]
  · intro b cid uid st hcid huid hne
    simp [receive, isFalsyStr, hcid, huid, hne]
  · intro b cid uid st hcid huid hsan hne
    simp [receive, isFalsyStr, hcid, huid, hsan, hne]
  · intro cid uid st hcid huid hsan hcs
    simp [receive, isFalsyStr, hcid, huid, hsan, hcs]

theorem claim8_receive_preconditions_witness :
    receive (some []) (some "7") (some "sess") (Storage.mk [] false []) =
      (.ok, Storage.mk [("sess", [("7", [])])] false []) := by
  have h := claim8_receive_preconditions.2.2.2.2.2.2.2 "7" "sess"
    (Storage.mk [] false []) (by decide) (by decide) (by decide) (by decide)
  exact h.trans (by decide)

end CoipoUpload
